import Mathlib

/-!
Verification of `pygmt/helpers/tempfile.py`.

The module is embedded shallowly:

* The filesystem is an association list from absolute path strings to file
  contents (a string).  `FS.lookup` models opening a path for reading,
  `osPathExists` models `os.path.exists`, `osRemove` models `os.remove`
  (which raises if the path is absent), and `FS.write` models an external
  writer creating/overwriting a file at a path.
* `unique_name` embeds `uuid.uuid4().hex`: the random 128-bit value drawn by
  `uuid4` is an explicit parameter `r`, and `.hex` renders the 128-bit
  integer as 32 zero-padded lowercase hexadecimal digits.
* `GMTTempFile` holds the single attribute `name` set by `__init__`.
  CPython's `NamedTemporaryFile(prefix=..., suffix=...)` creates the file
  `join(tempdir, prefix ++ random_middle ++ suffix)`; the random middle
  segment is an explicit parameter.  Since `__init__` passes only
  `prefix`/`suffix`, the default `delete=True` applies and the file is
  removed again when the `with` block inside `__init__` closes; the
  embedding performs the create followed by the delete.
* `read` embeds `GMTTempFile.read`; Python's `str.replace` with the
  one-character pattern `"\t"` and one-character replacement `" "` is the
  character map `pyReplaceChar`.
* `loadtxt` forwards the path and the options verbatim to `npLoadtxt`,
  which models the external generic whitespace-delimited numeric-table
  parser (`numpy.loadtxt`, not part of this repository) from the spec's
  description: comment stripping, row skipping, blank-line dropping,
  whitespace tokenization, numeric conversion, column-count consistency,
  column selection and optional unpacking (transposition).
* Errors are `Except` values: `FileError.fileNotFound` for OSError /
  FileNotFoundError (the spec's FileAccessError) and `ParseError` for the
  parser's failures.  File readability beyond existence (permissions) is
  not modelled: a path either maps to readable text or is absent.
-/

namespace PyGMT

/-- The filesystem: an association list from paths to file contents.
The head entry for a path shadows older ones. -/
abbrev FS := List (String × String)

/-- Open a path for reading: the content of the file, or `none` if absent. -/
def FS.lookup (fs : FS) (p : String) : Option String :=
  List.lookup p fs

/-- An external writer creating (or overwriting) the file at `p`. -/
def FS.write (fs : FS) (p c : String) : FS :=
  (p, c) :: fs

/-- Remove every entry stored under path `p`. -/
def FS.removeAll (fs : FS) (p : String) : FS :=
  fs.filter (fun e => !(e.1 == p))

/-- Embeds `os.path.exists`. -/
def osPathExists (fs : FS) (p : String) : Bool :=
  (FS.lookup fs p).isSome

/-- Errors raised by file operations (`FileNotFoundError` and kin);
the spec calls this `FileAccessError`. -/
inductive FileError where
  | fileNotFound
  deriving DecidableEq

/-- Embeds `os.remove`: deletes the file, raising `FileNotFoundError`
when the path does not exist. -/
def osRemove (fs : FS) (p : String) : Except FileError FS :=
  if osPathExists fs p then .ok (FS.removeAll fs p) else .error .fileNotFound

/-! ## `unique_name` -/

/-- One lowercase hexadecimal digit: `0`-`9` then `a`-`f`. -/
def hexDigitChar (n : Nat) : Char :=
  if n < 10 then Char.ofNat (48 + n) else Char.ofNat (87 + n)

/-- `k` zero-padded lowercase hexadecimal digits of `n`, most significant
first; this is CPython's rendering of an integer under a format of the
shape 032x, used by `uuid.UUID.hex`. -/
def hexDigits : Nat → Nat → List Char
  | 0, _ => []
  | k + 1, n => hexDigits k (n / 16) ++ [hexDigitChar (n % 16)]

/-- Embeds `unique_name`: `uuid.uuid4().hex`.  The 128 random bits drawn by
`uuid4` are the explicit parameter `r`; `.hex` renders the 128-bit integer
as exactly 32 zero-padded lowercase hexadecimal digits and no separator. -/
def unique_name (r : Nat) : String :=
  String.mk (hexDigits 32 (r % 2 ^ 128))

/-- A lowercase hexadecimal digit. -/
def isLowerHexDigit (c : Char) : Bool :=
  c.isDigit || ('a' ≤ c && c ≤ 'f')

/-! ## `GMTTempFile` -/

/-- The handle: `__init__` stores only the path in `self.name`. -/
structure GMTTempFile where
  name : String
  deriving DecidableEq

/-- The filename generated by CPython's temp-file facility for the given
leading segment `pre`, random middle segment `mid` and trailing segment
`suf`. -/
def tempFileBasename (pre mid suf : String) : String :=
  pre ++ mid ++ suf

/-- The absolute path of that file inside the temp directory `tmpdir`,
as produced by CPython joining `tmpdir` with the generated filename. -/
def tempFilePath (tmpdir pre mid suf : String) : String :=
  tmpdir ++ "/" ++ tempFileBasename pre mid suf

/-- The characters of the filename component of a path: everything after
the last path separator. -/
def basenameChars (l : List Char) : List Char :=
  l.foldl (fun acc c => if c = '/' then [] else acc ++ [c]) []

/-- The filename component of a path. -/
def basenameOf (p : String) : String :=
  String.mk (basenameChars p.data)

/-- Embeds `GMTTempFile.__init__`.  `args = dict(prefix=..., suffix=...)`;
`NamedTemporaryFile(**args)` creates the empty file at the generated path,
and — `delete` being left at its default `True` — deletes it again when the
`with` block inside `__init__` closes.  Only the path survives in `name`.
`tmpdir` is the OS temp directory and `mid` the random middle segment the
OS facility chooses. -/
def GMTTempFile.init (tmpdir mid : String) (pre : String := "pygmt-")
    (suf : String := ".txt") (fs : FS) : GMTTempFile × FS :=
  let n := tempFilePath tmpdir pre mid suf
  let fsCreated := FS.write fs n ""
  let fsClosed := FS.removeAll fsCreated n
  (⟨n⟩, fsClosed)

/-- Embeds `GMTTempFile.__enter__`: returns `self`. -/
def GMTTempFile.enter (t : GMTTempFile) : GMTTempFile := t

/-- Embeds `GMTTempFile.__exit__(*args)`: if a file exists at `self.name`,
remove it; the positional arguments (exception type, value, traceback) are
ignored and the body has no return, so Python returns `None`, modelled as
`none : Option Bool`. -/
def GMTTempFile.exit (t : GMTTempFile) (args : List String) (fs : FS) :
    Except FileError (FS × Option Bool) :=
  if osPathExists fs t.name then
    (osRemove fs t.name).map (fun fs2 => (fs2, none))
  else
    .ok (fs, none)

/-- Python truthiness of the value a `__exit__` returns: `None` is falsy. -/
def pyTruthy : Option Bool → Bool
  | none => false
  | some b => b

/-- Python's `str.replace` with a one-character pattern and a one-character
replacement: each occurrence of `old` becomes `new`. -/
def pyReplaceChar (s : String) (old new : Char) : String :=
  String.mk (s.data.map (fun ch => if ch = old then new else ch))

/-- Embeds `GMTTempFile.read`: `open(self.name)` raises
`FileNotFoundError` if the path is absent; otherwise the whole content is
read and, unless `keep_tabs`, every tab is replaced by a space. -/
def GMTTempFile.read (t : GMTTempFile) (fs : FS) (keep_tabs : Bool := false) :
    Except FileError String :=
  match FS.lookup fs t.name with
  | none => .error .fileNotFound
  | some content =>
      .ok (if keep_tabs then content else pyReplaceChar content '\t' ' ')

/-! ## The numeric-table parser behind `loadtxt`

`GMTTempFile.loadtxt` is `return np.loadtxt(self.name, **kwargs)`:
the keyword arguments are forwarded verbatim to the external parser and
its result is returned unmodified.  `numpy.loadtxt` itself is not part of
this repository; `npLoadtxt` below is modelled from the spec: a generic
whitespace-delimited numeric-table parser with a comment marker, a
skip-rows count, blank lines ignored, per-token numeric conversion at the
requested element type, a column-count consistency check, column
selection and optional unpacking into per-column sequences. -/

/-- The open-ended option set the caller passes through to the parser. -/
structure LoadtxtOptions where
  dtypeIsFloat : Bool := true
  unpack : Bool := false
  comments : Char := '#'
  skiprows : Nat := 0
  usecols : Option (List Nat) := none
  deriving DecidableEq

/-- Errors the parser signals; the spec calls all of them `ParseError`. -/
inductive ParseError where
  | fileMissing
  | noData
  | badToken
  | raggedRows
  deriving DecidableEq

/-- Split a character stream into lines at newline characters. -/
def splitLines : List Char → List (List Char)
  | [] => [[]]
  | c :: cs =>
      if c = '\n' then [] :: splitLines cs
      else
        match splitLines cs with
        | [] => [[c]]
        | l :: ls => (c :: l) :: ls

/-- Drop everything from the first occurrence of the comment marker on. -/
def stripAfter (mark : Char) : List Char → List Char
  | [] => []
  | c :: cs => if c = mark then [] else c :: stripAfter mark cs

/-- Whitespace for tokenization purposes. -/
def isWS (c : Char) : Bool :=
  c = ' ' || c = '\t' || c = '\r'

/-- Split a line into maximal runs of non-whitespace characters. -/
def tokenizeAux : List Char → List Char → List (List Char)
  | [], cur => if cur.isEmpty then [] else [cur.reverse]
  | c :: cs, cur =>
      if isWS c then
        if cur.isEmpty then tokenizeAux cs []
        else cur.reverse :: tokenizeAux cs []
      else tokenizeAux cs (c :: cur)

def tokenize (l : List Char) : List (List Char) :=
  tokenizeAux l []

/-- Numeric value of a run of decimal digit characters. -/
def digitsToNat (l : List Char) : Nat :=
  l.foldl (fun a c => 10 * a + (c.toNat - 48)) 0

/-- Split a token at its first dot: integer part and, when a dot is
present, the fractional part. -/
def splitDot : List Char → List Char × Option (List Char)
  | [] => ([], none)
  | c :: cs =>
      if c = '.' then ([], some cs)
      else
        let r := splitDot cs
        (c :: r.1, r.2)

/-- Convert one token at the requested element type: an optional sign,
then digits with at most one dot for the floating type, or a pure run of
digits for the integer type.  `none` when the token is not convertible. -/
def parseTok (isFloat : Bool) (tok : List Char) : Option Rat :=
  let signed : Bool × List Char :=
    match tok with
    | '-' :: cs => (true, cs)
    | '+' :: cs => (false, cs)
    | cs => (false, cs)
  let body := signed.2
  let mk : Rat → Option Rat := fun x => some (if signed.1 then -x else x)
  match splitDot body with
  | (ip, none) =>
      if ip.isEmpty || !(ip.all Char.isDigit) then none
      else mk (digitsToNat ip)
  | (ip, some fp) =>
      if isFloat then
        if (ip.isEmpty && fp.isEmpty)
            || !(ip.all Char.isDigit) || !(fp.all Char.isDigit) then none
        else
          mk ((digitsToNat ip : Rat)
            + (digitsToNat fp : Rat) / ((10 : Rat) ^ fp.length))
      else none

/-- The rows that survive skipping, comment stripping, tokenization and
blank-line removal: the parsable rows of the content. -/
def parsedRows (content : String) (opts : LoadtxtOptions) :
    List (List (List Char)) :=
  (((splitLines content.data).drop opts.skiprows).map
      (fun l => tokenize (stripAfter opts.comments l))).filter
    (fun r => !r.isEmpty)

/-- Convert every token of every row; `none` as soon as one token fails. -/
def convAll (isFloat : Bool) (rows : List (List (List Char))) :
    Option (List (List Rat)) :=
  rows.mapM (fun r => r.mapM (parseTok isFloat))

/-- Keep only the requested columns of a row. -/
def selectCols (cols : Option (List Nat)) (r : List Rat) : List Rat :=
  match cols with
  | none => r
  | some cs => cs.filterMap (fun i => r[i]?)

/-- Modelled from the spec: `numpy.loadtxt`, the generic
whitespace-delimited numeric-table parser, which is external to this
repository.  It signals a `ParseError` when the file is missing, when no
parsable rows remain, when a token is not convertible to the requested
numeric type, or when rows have inconsistent column counts; otherwise it
returns the numeric table, transposed into per-column sequences when
`unpack` is requested. -/
def npLoadtxt (file : Option String) (opts : LoadtxtOptions) :
    Except ParseError (List (List Rat)) :=
  match file with
  | none => .error .fileMissing
  | some content =>
      match parsedRows content opts with
      | [] => .error .noData
      | r0 :: rest =>
          match convAll opts.dtypeIsFloat (r0 :: rest) with
          | none => .error .badToken
          | some vals =>
              if rest.all (fun r => r.length = r0.length) then
                let selected := vals.map (selectCols opts.usecols)
                .ok (if opts.unpack then selected.transpose else selected)
              else .error .raggedRows

/-- Embeds `GMTTempFile.loadtxt`: `np.loadtxt(self.name, **kwargs)` — the
path and the whole option set are handed to the parser verbatim and its
result is returned unmodified. -/
def GMTTempFile.loadtxt (t : GMTTempFile) (fs : FS) (opts : LoadtxtOptions) :
    Except ParseError (List (List Rat)) :=
  npLoadtxt (FS.lookup fs t.name) opts

/-! ## Operation sequences over a handle -/

/-- The operations the spec allows on an active handle. -/
inductive Op where
  | enterScope
  | exitScope (args : List String)
  | readOp (keep_tabs : Bool)
  | loadtxtOp (opts : LoadtxtOptions)

/-- One operation applied to a handle/filesystem pair.  `__enter__`
returns `self`; `__exit__` may change the filesystem; `read` and
`loadtxt` only inspect it. -/
def applyOp (s : GMTTempFile × FS) : Op → GMTTempFile × FS
  | .enterScope => (s.1.enter, s.2)
  | .exitScope args =>
      match s.1.exit args s.2 with
      | .ok (fs2, _) => (s.1, fs2)
      | .error _ => s
  | .readOp _ => s
  | .loadtxtOp _ => s

/-- A whole sequence of operations. -/
def runOps (s : GMTTempFile × FS) (ops : List Op) : GMTTempFile × FS :=
  ops.foldl applyOp s

/-! ## Library lemmas about the filesystem model -/

theorem FS.lookup_removeAll (fs : FS) (p q : String) :
    FS.lookup (FS.removeAll fs p) q = if q = p then none else FS.lookup fs q := by
  induction fs with
  | nil => simp [FS.lookup, FS.removeAll, List.lookup]
  | cons e t ih =>
    obtain ⟨k, v⟩ := e
    have hcons : ∀ (l : FS), FS.lookup ((k, v) :: l) q
        = if q = k then some v else FS.lookup l q := by
      intro l
      by_cases hqk : q = k
      · have hb : (q == k) = true := beq_iff_eq.mpr hqk
        simp [FS.lookup, List.lookup, hb, hqk]
      · have hb : (q == k) = false := beq_eq_false_iff_ne.mpr hqk
        simp [FS.lookup, List.lookup, hb, hqk]
    by_cases hk : k = p
    · have hfil : FS.removeAll ((k, v) :: t) p = FS.removeAll t p := by
        simp [FS.removeAll, List.filter_cons, hk]
      rw [hfil, ih, hcons]
      by_cases hq : q = p
      · simp [hq]
      · have hqk : ¬ q = k := fun h => hq (h.trans hk)
        simp [hqk]
    · have hfil : FS.removeAll ((k, v) :: t) p
          = (k, v) :: FS.removeAll t p := by
        simp [FS.removeAll, List.filter_cons, hk]
      rw [hfil, hcons, hcons, ih]
      have hk2 : ¬ p = k := fun h => hk h.symm
      by_cases hqk : q = k
      · have hq : ¬ q = p := fun h => hk (hqk.symm.trans h)
        simp [hqk, hq, hk, hk2]
      · by_cases hq : q = p <;> simp [hqk, hq, hk, hk2]

theorem FS.lookup_removeAll_self (fs : FS) (p : String) :
    FS.lookup (FS.removeAll fs p) p = none := by
  simp [FS.lookup_removeAll]

theorem FS.lookup_write_self (fs : FS) (p c : String) :
    FS.lookup (FS.write fs p c) p = some c := by
  simp [FS.lookup, FS.write, List.lookup]

theorem osPathExists_false_iff (fs : FS) (p : String) :
    osPathExists fs p = false ↔ FS.lookup fs p = none := by
  cases h : FS.lookup fs p <;> simp [osPathExists, h]

theorem osPathExists_true_iff (fs : FS) (p : String) :
    osPathExists fs p = true ↔ ∃ c, FS.lookup fs p = some c := by
  cases h : FS.lookup fs p <;> simp [osPathExists, h]

/-- The one closed-form fact about `__exit__`: it always succeeds, returns
`None`, and leaves a filesystem where the handle's file is gone. -/
theorem exit_eq (t : GMTTempFile) (args : List String) (fs : FS) :
    t.exit args fs =
      .ok ((if osPathExists fs t.name then FS.removeAll fs t.name else fs),
           none) := by
  by_cases h : osPathExists fs t.name <;>
    simp [GMTTempFile.exit, osRemove, h, Except.map]

theorem lookup_after_exit (t : GMTTempFile) (fs : FS) :
    FS.lookup (if osPathExists fs t.name then FS.removeAll fs t.name else fs)
      t.name = none := by
  by_cases h : osPathExists fs t.name
  · simp [h, FS.lookup_removeAll_self]
  · have h0 : osPathExists fs t.name = false := by simpa using h
    simp [h0, (osPathExists_false_iff fs t.name).mp h0]

/-! ## Claim theorems -/

/-- C1: the claim says that immediately after `__init__` returns with the
default arguments, an empty readable regular file exists at `name`.  The
code as written contradicts this: `NamedTemporaryFile` is called with its
default `delete=True`, so the file created inside `__init__` is deleted
again when the `with` block closes, and no file exists at `name` once the
constructor returns.  This theorem evaluates the code at the failing
input: construction with the defaults leaves the path absent. -/
theorem C1_default_init_leaves_no_file (tmpdir mid : String) (fs : FS) :
    FS.lookup (GMTTempFile.init tmpdir mid "pygmt-" ".txt" fs).2
      (GMTTempFile.init tmpdir mid "pygmt-" ".txt" fs).1.name = none := by
  simp [GMTTempFile.init, FS.lookup_removeAll_self]

/-- C2: `__exit__` deletes the file at `name` when one exists, does
nothing and raises no error when none does, and in either case the path
no longer refers to an existing file afterwards — for every combination
of exception arguments. -/
theorem C2_exit_deletes_and_tolerates_absence
    (t : GMTTempFile) (args : List String) (fs : FS) :
    ∃ fs2, t.exit args fs = .ok (fs2, none)
      ∧ FS.lookup fs2 t.name = none
      ∧ (osPathExists fs t.name = false → fs2 = fs) := by
  refine ⟨_, exit_eq t args fs, lookup_after_exit t fs, fun h => ?_⟩
  simp [h]

/-- C2 witness: a concrete handle whose file exists. -/
theorem C2_witness :
    ∃ fs2, GMTTempFile.exit ⟨"/tmp/pygmt-w2.txt"⟩ []
        [("/tmp/pygmt-w2.txt", "data")] = .ok (fs2, none)
      ∧ FS.lookup fs2 ("/tmp/pygmt-w2.txt") = none
      ∧ (osPathExists [("/tmp/pygmt-w2.txt", "data")] ("/tmp/pygmt-w2.txt")
            = false
          → fs2 = [("/tmp/pygmt-w2.txt", "data")]) :=
  C2_exit_deletes_and_tolerates_absence ⟨"/tmp/pygmt-w2.txt"⟩ []
    [("/tmp/pygmt-w2.txt", "data")]

/-- C6: the release step is idempotent with respect to errors — two
successive `__exit__` calls both succeed (no error), and the second one
finds nothing to delete and leaves the filesystem unchanged. -/
theorem C6_exit_idempotent
    (t : GMTTempFile) (a1 a2 : List String) (fs : FS) :
    ∃ fs1 fs2, t.exit a1 fs = .ok (fs1, none)
      ∧ t.exit a2 fs1 = .ok (fs2, none) ∧ fs2 = fs1 := by
  refine ⟨_, _, exit_eq t a1 fs, exit_eq t a2 _, ?_⟩
  have h1 : osPathExists
      (if osPathExists fs t.name then FS.removeAll fs t.name else fs)
      t.name = false :=
    (osPathExists_false_iff _ _).mpr (lookup_after_exit t fs)
  simp [h1]

/-- C10: `__exit__` has no `return`, so Python returns `None` for every
combination of exception arguments; `None` is falsy, hence the context
manager never suppresses an exception raised in the guarded scope. -/
theorem C10_exit_returns_falsy
    (t : GMTTempFile) (args : List String) (fs : FS) :
    ∃ fs2, t.exit args fs = .ok (fs2, none) ∧ pyTruthy none = false :=
  ⟨_, exit_eq t args fs, rfl⟩

/-- C3: reading with `keep_tabs=false` returns the stored content with
every horizontal-tab character replaced by a single space — position by
position, every other character verbatim and the length unchanged — and
`read(keep_tabs=True)` returns the content exactly as stored. -/
theorem C3_read_tab_handling (t : GMTTempFile) (fs : FS) (c : String)
    (h : FS.lookup fs t.name = some c) :
    ∃ r, t.read fs false = .ok r
      ∧ (∀ i : Nat, r.data[i]? =
          (c.data[i]?).map (fun ch => if ch = '\t' then ' ' else ch))
      ∧ t.read fs true = .ok c := by
  refine ⟨pyReplaceChar c '\t' ' ', ?_, ?_, ?_⟩
  · simp [GMTTempFile.read, h]
  · intro i
    simp [pyReplaceChar]
  · simp [GMTTempFile.read, h]

/-- C3 witness: the spec's scenario content, together with the concrete
equalities the scenario demands. -/
theorem C3_witness :
    (∃ r, GMTTempFile.read ⟨"/tmp/pygmt-w3.txt"⟩
          [("/tmp/pygmt-w3.txt", "1.0\t2.0\t3.0\n")] false = .ok r
        ∧ (∀ i : Nat, r.data[i]? =
            ((("1.0\t2.0\t3.0\n" : String)).data[i]?).map
              (fun ch => if ch = '\t' then ' ' else ch))
        ∧ GMTTempFile.read ⟨"/tmp/pygmt-w3.txt"⟩
            [("/tmp/pygmt-w3.txt", "1.0\t2.0\t3.0\n")] true
            = .ok ("1.0\t2.0\t3.0\n"))
    ∧ GMTTempFile.read ⟨"/tmp/pygmt-w3.txt"⟩
        [("/tmp/pygmt-w3.txt", "1.0\t2.0\t3.0\n")] false
        = .ok ("1.0 2.0 3.0\n") :=
  ⟨C3_read_tab_handling ⟨"/tmp/pygmt-w3.txt"⟩
      [("/tmp/pygmt-w3.txt", "1.0\t2.0\t3.0\n")] ("1.0\t2.0\t3.0\n") rfl,
    rfl⟩

/-- C5: `read` succeeds exactly when a file exists at the handle's path
at call time, signals the file-access error when none does, and in
particular always signals it right after a scope exit. -/
theorem C5_read_errors_without_file (t : GMTTempFile) (fs : FS) (kt : Bool) :
    (osPathExists fs t.name = true → ∃ s, t.read fs kt = .ok s)
      ∧ (FS.lookup fs t.name = none → t.read fs kt = .error .fileNotFound)
      ∧ (∀ args fs2 r, t.exit args fs = .ok (fs2, r) →
          t.read fs2 kt = .error .fileNotFound) := by
  refine ⟨fun h => ?_, fun h => ?_, fun args fs2 r h => ?_⟩
  · obtain ⟨c, hc⟩ := (osPathExists_true_iff fs t.name).mp h
    exact ⟨if kt then c else pyReplaceChar c '\t' ' ',
      by simp [GMTTempFile.read, hc]⟩
  · simp [GMTTempFile.read, h]
  · rw [exit_eq t args fs] at h
    injection h with h3
    have hfs2 : fs2
        = if osPathExists fs t.name then FS.removeAll fs t.name else fs := by
      have h4 := congrArg (fun x => x.1) h3
      simpa using h4.symm
    rw [hfs2]
    simp [GMTTempFile.read, lookup_after_exit t fs]

/-- C5 witness: reading after scope exit on a concrete handle signals the
error rather than returning stale content. -/
theorem C5_witness :
    GMTTempFile.read ⟨"/tmp/pygmt-w5.txt"⟩ [] false
      = .error .fileNotFound :=
  (C5_read_errors_without_file ⟨"/tmp/pygmt-w5.txt"⟩ [] false).2.1 rfl

theorem hexDigits_length (k n : Nat) : (hexDigits k n).length = k := by
  induction k generalizing n with
  | zero => rfl
  | succ k ih => simp [hexDigits, ih]

theorem hexDigitChar_isLowerHex :
    ∀ m < 16, isLowerHexDigit (hexDigitChar m) = true := by decide

theorem hexDigits_all_lowerHex (k n : Nat) :
    ∀ c ∈ hexDigits k n, isLowerHexDigit c = true := by
  induction k generalizing n with
  | zero => intro c hc; simp [hexDigits] at hc
  | succ k ih =>
    intro c hc
    simp only [hexDigits, List.mem_append, List.mem_singleton] at hc
    rcases hc with h | h
    · exact ih (n / 16) c h
    · rw [h]
      exact hexDigitChar_isLowerHex (n % 16) (Nat.mod_lt n (by norm_num))

/-- C4: for every draw of the 128 random bits, `unique_name` returns a
string of exactly 32 characters, each a lowercase hexadecimal digit — the
hex rendering of the 128-bit UUID with no separator punctuation. -/
theorem C4_unique_name_is_32_lower_hex (r : Nat) :
    (unique_name r).length = 32
      ∧ ∀ c ∈ (unique_name r).data, isLowerHexDigit c = true := by
  constructor
  · rw [unique_name, String.length_mk]
    exact hexDigits_length 32 (r % 2 ^ 128)
  · intro c hc
    rw [unique_name] at hc
    exact hexDigits_all_lowerHex 32 (r % 2 ^ 128) c hc

/-- C4 witness: two concrete draws, the all-zero one and the all-one
one. -/
theorem C4_witness :
    ((unique_name 0).length = 32
        ∧ ∀ c ∈ (unique_name 0).data, isLowerHexDigit c = true)
      ∧ ((unique_name (2 ^ 128 - 1)).length = 32
        ∧ ∀ c ∈ (unique_name (2 ^ 128 - 1)).data,
            isLowerHexDigit c = true) :=
  ⟨C4_unique_name_is_32_lower_hex 0,
    C4_unique_name_is_32_lower_hex (2 ^ 128 - 1)⟩

theorem basename_fold_no_slash (l acc : List Char)
    (h : ∀ c ∈ l, ¬ c = '/') :
    l.foldl (fun acc c => if c = '/' then [] else acc ++ [c]) acc
      = acc ++ l := by
  induction l generalizing acc with
  | nil => simp
  | cons c cs ih =>
    have hc : ¬ c = '/' := h c (List.mem_cons_self c cs)
    have hrest : ∀ d ∈ cs, ¬ d = '/' := fun d hd => h d (List.mem_cons_of_mem c hd)
    simp only [List.foldl_cons, if_neg hc]
    rw [ih (acc ++ [c]) hrest]
    simp

theorem basenameChars_append_sep (l1 l2 : List Char)
    (h : ∀ c ∈ l2, ¬ c = '/') :
    basenameChars (l1 ++ '/' :: l2) = l2 := by
  unfold basenameChars
  rw [List.foldl_append, List.foldl_cons, if_pos rfl]
  exact basename_fold_no_slash l2 [] h

/-- C7: when the leading segment, the random middle segment and the
trailing segment contain no path separator, the filename component of
the constructed handle's path is exactly `pre ++ mid ++ suf`: it starts
with the given leading segment verbatim and ends with the given trailing
segment verbatim. -/
theorem C7_basename_has_given_segments
    (tmpdir pre mid suf : String) (fs : FS)
    (hp : ∀ c ∈ pre.data, ¬ c = '/')
    (hm : ∀ c ∈ mid.data, ¬ c = '/')
    (hs : ∀ c ∈ suf.data, ¬ c = '/') :
    ∃ restA restB,
      (basenameOf (GMTTempFile.init tmpdir mid pre suf fs).1.name).data
          = pre.data ++ restA
        ∧ (basenameOf (GMTTempFile.init tmpdir mid pre suf fs).1.name).data
          = restB ++ suf.data := by
  have hname : (GMTTempFile.init tmpdir mid pre suf fs).1.name
      = tmpdir ++ "/" ++ (pre ++ mid ++ suf) := rfl
  have hdata : (tmpdir ++ "/" ++ (pre ++ mid ++ suf)).data
      = tmpdir.data ++ '/' :: (pre.data ++ mid.data ++ suf.data) := by
    simp [String.data_append]
  have hnos : ∀ c ∈ pre.data ++ mid.data ++ suf.data, ¬ c = '/' := by
    intro c hc
    simp only [List.mem_append] at hc
    rcases hc with (h1 | h2) | h3
    · exact hp c h1
    · exact hm c h2
    · exact hs c h3
  have hbase : (basenameOf (GMTTempFile.init tmpdir mid pre suf fs).1.name).data
      = pre.data ++ mid.data ++ suf.data := by
    show basenameChars (GMTTempFile.init tmpdir mid pre suf fs).1.name.data
        = pre.data ++ mid.data ++ suf.data
    rw [hname, hdata]
    exact basenameChars_append_sep tmpdir.data _ hnos
  exact ⟨mid.data ++ suf.data, pre.data ++ mid.data,
    by rw [hbase]; simp, by rw [hbase]⟩

/-- C7 witness: the spec's scenario, leading segment `"foo-"` and
trailing segment `".dat"`. -/
theorem C7_witness :
    ∃ restA restB,
      (basenameOf (GMTTempFile.init ("/tmp") ("abc123") ("foo-") (".dat")
            []).1.name).data
          = ("foo-" : String).data ++ restA
        ∧ (basenameOf (GMTTempFile.init ("/tmp") ("abc123") ("foo-") (".dat")
            []).1.name).data
          = restB ++ (".dat" : String).data :=
  C7_basename_has_given_segments ("/tmp") ("foo-") ("abc123") (".dat") []
    (by decide) (by decide) (by decide)

/-- C8: `loadtxt` hands the handle's path and the whole option set to the
numeric-table parser verbatim and returns its result unmodified; the
parser signals a `ParseError` when the file is missing, when the content
has no parsable rows, when a token is not convertible to the requested
numeric type, and when rows have inconsistent column counts. -/
theorem C8_loadtxt_passthrough_and_errors (t : GMTTempFile) (fs : FS)
    (opts : LoadtxtOptions) :
    (t.loadtxt fs opts = npLoadtxt (FS.lookup fs t.name) opts)
      ∧ (FS.lookup fs t.name = none →
          t.loadtxt fs opts = .error .fileMissing)
      ∧ (∀ c, FS.lookup fs t.name = some c → parsedRows c opts = [] →
          t.loadtxt fs opts = .error .noData)
      ∧ (∀ c, FS.lookup fs t.name = some c →
          convAll opts.dtypeIsFloat (parsedRows c opts) = none →
          ∃ e, t.loadtxt fs opts = .error e)
      ∧ (∀ c r0 rest, FS.lookup fs t.name = some c →
          parsedRows c opts = r0 :: rest →
          rest.all (fun r => r.length = r0.length) = false →
          ∃ e, t.loadtxt fs opts = .error e) := by
  refine ⟨rfl, fun h => ?_, fun c hc hr => ?_, fun c hc hconv => ?_,
    fun c r0 rest hc hr hragged => ?_⟩
  · simp [GMTTempFile.loadtxt, h, npLoadtxt]
  · simp [GMTTempFile.loadtxt, hc, npLoadtxt, hr]
  · cases hr : parsedRows c opts with
    | nil =>
        rw [hr] at hconv
        have hsome : convAll opts.dtypeIsFloat [] = some [] := rfl
        rw [hsome] at hconv
        exact Option.noConfusion hconv
    | cons r0 rest =>
        rw [hr] at hconv
        exact ⟨.badToken,
          by simp [GMTTempFile.loadtxt, hc, npLoadtxt, hr, hconv]⟩
  · cases hcv : convAll opts.dtypeIsFloat (r0 :: rest) with
    | none =>
        exact ⟨.badToken,
          by simp [GMTTempFile.loadtxt, hc, npLoadtxt, hr, hcv]⟩
    | some vals =>
        exact ⟨.raggedRows,
          by simp [GMTTempFile.loadtxt, hc, npLoadtxt, hr, hcv, hragged]⟩

/-- C8 witness: a missing file signals a parse-level error. -/
theorem C8_witness :
    GMTTempFile.loadtxt ⟨"/tmp/pygmt-w8.txt"⟩ [] {} = .error .fileMissing :=
  (C8_loadtxt_passthrough_and_errors ⟨"/tmp/pygmt-w8.txt"⟩ [] {}).2.1 rfl

/-- C9: for every handle and every sequence of scope entries, scope
exits, `read`s and `loadtxt`s, the handle's `name` attribute is never
modified — no operation of the class assigns to it after construction. -/
theorem C9_name_never_modified (t : GMTTempFile) (fs : FS) (ops : List Op) :
    (runOps (t, fs) ops).1.name = t.name := by
  induction ops generalizing t fs with
  | nil => rfl
  | cons op rest ih =>
    have hstep : ∀ s : GMTTempFile × FS, (applyOp s op).1 = s.1 := by
      intro s
      cases op with
      | enterScope => rfl
      | exitScope args => simp [applyOp, exit_eq]
      | readOp kt => rfl
      | loadtxtOp o => rfl
    calc (runOps (t, fs) (op :: rest)).1.name
        = (runOps (applyOp (t, fs) op) rest).1.name := rfl
      _ = (applyOp (t, fs) op).1.name := by
          have h2 := ih (applyOp (t, fs) op).1 (applyOp (t, fs) op).2
          simpa using h2
      _ = t.name := by rw [hstep (t, fs)]

end PyGMT
